import Mathlib

/-!
Verification of the canonicalization/interning cache in
`crates/oxc_type_checker/src/subsystem/type_cache.rs`.

Shallow embedding:
* `TypeId` (`oxc_syntax::types::TypeId`) is an opaque, copyable integer
  identity; it is modelled as `Nat`, ordered numerically (the derived `Ord`
  on the underlying index).
* `TypeList` models the Rust `TypeList<'a>(Vec<'a, TypeId>)`: an owned
  sequence of `TypeId`s.  The arena parameter `alloc` only chooses where the
  backing storage lives and has no observable effect on the sequence of
  elements, so it is dropped from the embedding.
* `Vec::sort_unstable` sorts by the total numeric order on `TypeId`; since
  equal `TypeId`s are indistinguishable values, every correct comparison
  sort produces the same output list, so it is modelled by
  `List.insertionSort (· ≤ ·)`.
* `Vec::dedup` removes *consecutive* repeated elements, keeping one element
  of each run; it is modelled by `vecDedup`.  `shrink_to_fit` only touches
  capacity, not contents, and is dropped.
* Each `Cache<K> = RefCell<FxHashMap<K, TypeId>>` table is modelled as a
  function `K → Option TypeId`; `FxHashMap::insert` replaces any previous
  binding and returns it, modelled by `mapInsert`.  The `RefCell` only
  provides single-threaded interior mutability, so cache mutation is
  modelled by explicit state passing: each `add`/`set` operation returns
  the updated `TypeCache` together with the value of the
  `debug_assert!(existing.is_none())` condition (`debug_assert_ok`); in
  debug-instrumented builds `debug_assert_ok = false` is a fatal assertion
  failure, in non-instrumented builds the flag has no effect and execution
  continues with the returned cache state.
-/

abbrev TypeId := Nat

/-- Model of `Vec::dedup`: removes consecutive repeated elements of the
vector, keeping one element of each run of equal elements. -/
def vecDedup : List TypeId → List TypeId
  | [] => []
  | [a] => [a]
  | a :: b :: rest =>
    if a = b then vecDedup (b :: rest) else a :: vecDedup (b :: rest)

/-- Model of `Vec::sort_unstable`: sorts by the total numeric order on
`TypeId`.  Equal `TypeId`s are indistinguishable, so the output of any
correct comparison sort is this unique sorted permutation. -/
def sortUnstable (l : List TypeId) : List TypeId :=
  List.insertionSort (· ≤ ·) l

/-- Model of `TypeList<'a>`: the owned sequence of `TypeId`s held in the
`Vec`.  `Deref`/`Borrow` expose exactly `toList` as the read-only slice, and
the derived `PartialEq`/`Eq`/`Hash` are structural over this sequence. -/
structure TypeList where
  toList : List TypeId
deriving DecidableEq

/-- Model of `TypeList::new`: copy the input slice (`extend_from_slice`),
`sort_unstable`, `dedup`, `shrink_to_fit`. -/
def TypeList.new (types : List TypeId) : TypeList :=
  ⟨vecDedup (sortUnstable types)⟩

/-- Model of `TypeList::from_iter`: collect the iterator in order
(`Vec::from_iter_in`), then `sort_unstable`, `dedup`, `shrink_to_fit`.
The iterator is modelled by the list of items it yields, in order. -/
def TypeList.from_iter (iter : List TypeId) : TypeList :=
  ⟨vecDedup (sortUnstable iter)⟩

theorem mem_of_mem_vecDedup : ∀ {l : List TypeId} {x : TypeId},
    x ∈ vecDedup l → x ∈ l
  | [], _, h => by simp [vecDedup] at h
  | [_], _, h => by simpa [vecDedup] using h
  | a :: b :: rest, x, h => by
    by_cases hab : a = b
    · have hx : x ∈ vecDedup (b :: rest) := by simpa [vecDedup, hab] using h
      exact List.mem_cons_of_mem a (mem_of_mem_vecDedup hx)
    · have hx : x = a ∨ x ∈ vecDedup (b :: rest) := by
        simpa [vecDedup, hab] using h
      rcases hx with hx | hx
      · exact hx ▸ List.mem_cons_self a (b :: rest)
      · exact List.mem_cons_of_mem a (mem_of_mem_vecDedup hx)

theorem sorted_lt_vecDedup : ∀ {l : List TypeId},
    l.Sorted (· ≤ ·) → (vecDedup l).Sorted (· < ·)
  | [], _ => by simp [vecDedup]
  | [a], _ => by simp [vecDedup]
  | a :: b :: rest, h => by
    obtain ⟨ha, htail⟩ := List.sorted_cons.mp h
    have ih := sorted_lt_vecDedup htail
    by_cases hab : a = b
    · simpa [vecDedup, hab] using ih
    · have hab' : a < b :=
        lt_of_le_of_ne (ha b (List.mem_cons_self b rest)) hab
      have hbound : ∀ x ∈ vecDedup (b :: rest), a < x := by
        intro x hx
        have hx' : x ∈ b :: rest := mem_of_mem_vecDedup hx
        rcases List.mem_cons.mp hx' with hx' | hx'
        · exact hx' ▸ hab'
        · exact lt_of_lt_of_le hab' ((List.sorted_cons.mp htail).1 x hx')
      simpa [vecDedup, hab, List.sorted_cons] using ⟨hbound, ih⟩

theorem vecDedup_of_sorted_lt : ∀ {l : List TypeId},
    l.Sorted (· < ·) → vecDedup l = l
  | [], _ => rfl
  | [_], _ => rfl
  | a :: b :: rest, h => by
    obtain ⟨ha, htail⟩ := List.sorted_cons.mp h
    have hab : a ≠ b := Nat.ne_of_lt (ha b (List.mem_cons_self b rest))
    simp [vecDedup, hab, vecDedup_of_sorted_lt htail]

theorem typeList_new_sorted_lt (xs : List TypeId) :
    (TypeList.new xs).toList.Sorted (· < ·) :=
  sorted_lt_vecDedup (List.sorted_insertionSort (· ≤ ·) xs)

theorem typeList_new_congr_perm {xs ys : List TypeId} (h : xs.Perm ys) :
    TypeList.new xs = TypeList.new ys := by
  have hsort : sortUnstable xs = sortUnstable ys := by
    refine List.eq_of_perm_of_sorted ?_
      (List.sorted_insertionSort (· ≤ ·) xs)
      (List.sorted_insertionSort (· ≤ ·) ys)
    exact ((List.perm_insertionSort (· ≤ ·) xs).trans h).trans
      (List.perm_insertionSort (· ≤ ·) ys).symm
  simp [TypeList.new, hsort]

theorem typeList_new_of_sorted_lt {l : List TypeId} (h : l.Sorted (· < ·)) :
    TypeList.new l = ⟨l⟩ := by
  have hle : l.Sorted (· ≤ ·) := h.imp fun hx => le_of_lt hx
  simp [TypeList.new, sortUnstable, hle.insertionSort_eq,
    vecDedup_of_sorted_lt h]

/-- C1: building a `TypeList` (`TypeList::new`) from any permutation of a
sequence of `TypeId`s yields an equal `TypeList`; in particular `[5,3,7]`
and `[7,3,5]` both canonicalize to `[3,5,7]`. -/
theorem typeList_new_order_independent :
    (∀ xs ys : List TypeId, xs.Perm ys → TypeList.new xs = TypeList.new ys) ∧
    TypeList.new [5, 3, 7] = ⟨[3, 5, 7]⟩ ∧
    TypeList.new [7, 3, 5] = ⟨[3, 5, 7]⟩ :=
  ⟨fun _ _ h => typeList_new_congr_perm h, by decide, by decide⟩

/-- Witness for C1 at the concrete permutation `[5,3,7] ~ [7,3,5]`. -/
theorem typeList_new_order_independent_witness :
    TypeList.new [5, 3, 7] = TypeList.new [7, 3, 5] :=
  typeList_new_order_independent.1 [5, 3, 7] [7, 3, 5] (by decide)

/-- C3: the slice exposed by `TypeList::new` is strictly increasing in
`TypeId` numeric order (sorted and duplicate-free); in particular building
from `[3,3,5,7,7,7]` yields `[3,5,7]`. -/
theorem typeList_new_strictly_sorted :
    (∀ xs : List TypeId, (TypeList.new xs).toList.Sorted (· < ·)) ∧
    TypeList.new [3, 3, 5, 7, 7, 7] = ⟨[3, 5, 7]⟩ :=
  ⟨typeList_new_sorted_lt, by decide⟩

/-- C7: canonicalization is idempotent: rebuilding a `TypeList` from the
slice exposed by an already-built `TypeList` yields an equal `TypeList`. -/
theorem typeList_new_idempotent (xs : List TypeId) :
    TypeList.new (TypeList.new xs).toList = TypeList.new xs :=
  typeList_new_of_sorted_lt (typeList_new_sorted_lt xs)

/-- C8: `TypeList::from_iter` agrees with `TypeList::new` applied to the
collected sequence of the iterator's items, in order. -/
theorem typeList_from_iter_eq_new (xs : List TypeId) :
    TypeList.from_iter xs = TypeList.new xs :=
  rfl

/-- Model of `oxc_span::Atom<'a>`: an interned string slice, compared and
hashed by textual content. -/
abbrev Atom := String

/-- Modelled from the spec: the key type `crate::ast::Number` of the
number-literal cache is code of this repository that is not under `src/`.
Per the spec, number literals are keyed by the numeric value's exact bit
representation (the 64-bit pattern), so two occurrences of the same NaN
bit pattern compare and hash equal, while positive zero and negative zero
(distinct bit patterns) are distinct keys.  `bits` is that 64-bit
pattern. -/
structure Number where
  bits : Nat
deriving DecidableEq

/-- The 64-bit pattern of the canonical quiet NaN. -/
def nanBits : Nat := 0x7FF8000000000000

/-- The 64-bit pattern of positive zero. -/
def posZeroBits : Nat := 0

/-- The 64-bit pattern of negative zero. -/
def negZeroBits : Nat := 0x8000000000000000

/-- Model of `FxHashMap::insert`: binds `k` to `v` and returns the updated
map together with the previous binding of `k`, if any. -/
def mapInsert {K : Type} [DecidableEq K] (m : K → Option TypeId) (k : K)
    (v : TypeId) : (K → Option TypeId) × Option TypeId :=
  (fun k2 => if k2 = k then some v else m k2, m k)

/-- Model of `TypeCache<'a>`: one table (`Cache<K>` =
`RefCell<FxHashMap<K, TypeId>>`) per type category.  The arena reference
`alloc` has no observable effect on lookups and is dropped. -/
structure TypeCache where
  tuples : String → Option TypeId
  unions : TypeList → Option TypeId
  union_of_unions : String → Option TypeId
  intersections : TypeList → Option TypeId
  string_literals : Atom → Option TypeId
  number_literals : Number → Option TypeId
  big_int_literals : Atom → Option TypeId

/-- Model of `TypeCache::new`: every table starts empty
(`Cache::default()`). -/
def TypeCache.new : TypeCache where
  tuples := fun _ => none
  unions := fun _ => none
  union_of_unions := fun _ => none
  intersections := fun _ => none
  string_literals := fun _ => none
  number_literals := fun _ => none
  big_int_literals := fun _ => none

/-- Model of `TypeCache::type_list`: delegates to `TypeList::new` (the
arena argument is dropped, see `TypeList`). -/
def TypeCache.type_list (_c : TypeCache) (types : List TypeId) : TypeList :=
  TypeList.new types

/-- Result of an `add`/`set` operation: the updated cache state together
with the value of the `debug_assert!(existing.is_none())` condition.  In
debug-instrumented builds `debug_assert_ok = false` is a fatal assertion
failure at that point; in non-instrumented builds the flag has no effect
and execution continues with `cache`. -/
structure AddOutcome where
  cache : TypeCache
  debug_assert_ok : Bool

/-- Model of `TypeCache::get_union`. -/
def TypeCache.get_union (c : TypeCache) (types : TypeList) : Option TypeId :=
  c.unions types

/-- Model of `TypeCache::add_union`: inserts, then checks the previous
binding was absent. -/
def TypeCache.add_union (c : TypeCache) (types : TypeList) (id : TypeId) :
    AddOutcome :=
  let r := mapInsert c.unions types id
  { cache := { c with unions := r.1 }, debug_assert_ok := r.2.isNone }

/-- Model of `TypeCache::get_number`. -/
def TypeCache.get_number (c : TypeCache) (value : Number) : Option TypeId :=
  c.number_literals value

/-- Model of `TypeCache::add_number`: inserts, then checks the previous
binding was absent. -/
def TypeCache.add_number (c : TypeCache) (value : Number) (type_id : TypeId) :
    AddOutcome :=
  let r := mapInsert c.number_literals value type_id
  { cache := { c with number_literals := r.1 }, debug_assert_ok := r.2.isNone }

/-- Model of `TypeCache::get_string`. -/
def TypeCache.get_string (c : TypeCache) (value : Atom) : Option TypeId :=
  c.string_literals value

/-- Model of `TypeCache::set_string`: inserts, then checks the previous
binding was absent. -/
def TypeCache.set_string (c : TypeCache) (value : Atom) (type_id : TypeId) :
    AddOutcome :=
  let r := mapInsert c.string_literals value type_id
  { cache := { c with string_literals := r.1 }, debug_assert_ok := r.2.isNone }

/-- Model of `TypeCache::get_big_int`. -/
def TypeCache.get_big_int (c : TypeCache) (raw_value : Atom) : Option TypeId :=
  c.big_int_literals raw_value

/-- Model of `TypeCache::set_big_int`: inserts, then checks the previous
binding was absent. -/
def TypeCache.set_big_int (c : TypeCache) (raw_value : Atom)
    (type_id : TypeId) : AddOutcome :=
  let r := mapInsert c.big_int_literals raw_value type_id
  { cache := { c with big_int_literals := r.1 }, debug_assert_ok := r.2.isNone }

/-- Modelled from the spec: the `intersections` table is declared in
`TypeCache` but its accessor pair is not under `src/`; per the spec, the
cache "exposes exactly one pair of get/add operations per category", each
delegating to the matching table, so `get_intersection` mirrors
`get_union` on the `intersections` table. -/
def TypeCache.get_intersection (c : TypeCache) (types : TypeList) :
    Option TypeId :=
  c.intersections types

/-- Modelled from the spec: counterpart of `add_union` on the
`intersections` table (see `TypeCache.get_intersection`). -/
def TypeCache.add_intersection (c : TypeCache) (types : TypeList)
    (id : TypeId) : AddOutcome :=
  let r := mapInsert c.intersections types id
  { cache := { c with intersections := r.1 }, debug_assert_ok := r.2.isNone }

/-- C2: on a fresh `TypeCache`, `get` returns nothing for every key; and
after `add`/`set` of `(key, id)` on a cache with no existing mapping for
the key, `get key` returns `id` — for each exposed key type (union
`TypeList`, number literal, string literal, big-int literal). -/
theorem typeCache_get_add_consistent (c : TypeCache) (l : TypeList)
    (n : Number) (s b : Atom) (i1 i2 i3 i4 : TypeId)
    (_hu : c.get_union l = none) (_hn : c.get_number n = none)
    (_hs : c.get_string s = none) (_hb : c.get_big_int b = none) :
    TypeCache.new.get_union l = none ∧ TypeCache.new.get_number n = none ∧
    TypeCache.new.get_string s = none ∧ TypeCache.new.get_big_int b = none ∧
    (c.add_union l i1).cache.get_union l = some i1 ∧
    (c.add_number n i2).cache.get_number n = some i2 ∧
    (c.set_string s i3).cache.get_string s = some i3 ∧
    (c.set_big_int b i4).cache.get_big_int b = some i4 := by
  refine ⟨rfl, rfl, rfl, rfl, ?_, ?_, ?_, ?_⟩ <;>
    simp [TypeCache.add_union, TypeCache.add_number, TypeCache.set_string,
      TypeCache.set_big_int, TypeCache.get_union, TypeCache.get_number,
      TypeCache.get_string, TypeCache.get_big_int, mapInsert]

/-- Witness for C2 at concrete keys and ids, starting from the fresh
cache. -/
theorem typeCache_get_add_consistent_witness :
    TypeCache.new.get_union ⟨[3, 5]⟩ = none ∧
    TypeCache.new.get_number ⟨5⟩ = none ∧
    TypeCache.new.get_string "a" = none ∧
    TypeCache.new.get_big_int "1n" = none ∧
    (TypeCache.new.add_union ⟨[3, 5]⟩ 10).cache.get_union ⟨[3, 5]⟩ = some 10 ∧
    (TypeCache.new.add_number ⟨5⟩ 11).cache.get_number ⟨5⟩ = some 11 ∧
    (TypeCache.new.set_string "a" 12).cache.get_string "a" = some 12 ∧
    (TypeCache.new.set_big_int "1n" 13).cache.get_big_int "1n" = some 13 :=
  typeCache_get_add_consistent TypeCache.new ⟨[3, 5]⟩ ⟨5⟩ "a" "1n"
    10 11 12 13 rfl rfl rfl rfl

/-- C4: the union and intersection tables are isolated: with the canonical
list of member set `{3,5,7}` as key, `add_union` of `100` and
`add_intersection` of `200` on the same cache coexist, and `get_union`
returns `100` while `get_intersection` returns `200`. -/
theorem typeCache_union_intersection_isolated :
    (((TypeCache.new.add_union (TypeList.new [3, 5, 7]) 100).cache.add_intersection
        (TypeList.new [3, 5, 7]) 200).cache.get_union
        (TypeList.new [3, 5, 7]) = some 100) ∧
    (((TypeCache.new.add_union (TypeList.new [3, 5, 7]) 100).cache.add_intersection
        (TypeList.new [3, 5, 7]) 200).cache.get_intersection
        (TypeList.new [3, 5, 7]) = some 200) := by
  constructor <;> rfl

/-- C5: a second `add`/`set` for a key that already has a mapping makes
the `debug_assert!(existing.is_none())` condition false — a fatal
assertion failure in debug-instrumented builds — and the insertion has
silently overwritten the previous mapping, so in non-instrumented builds
(where execution continues) a subsequent `get` returns the second id; for
each of the four add/set operations. -/
theorem typeCache_double_add_asserts (c : TypeCache) (l : TypeList)
    (n : Number) (s b : Atom) (i1 i2 : TypeId) :
    (((c.add_union l i1).cache.add_union l i2).debug_assert_ok = false ∧
      ((c.add_union l i1).cache.add_union l i2).cache.get_union l = some i2) ∧
    (((c.add_number n i1).cache.add_number n i2).debug_assert_ok = false ∧
      ((c.add_number n i1).cache.add_number n i2).cache.get_number n = some i2) ∧
    (((c.set_string s i1).cache.set_string s i2).debug_assert_ok = false ∧
      ((c.set_string s i1).cache.set_string s i2).cache.get_string s = some i2) ∧
    (((c.set_big_int b i1).cache.set_big_int b i2).debug_assert_ok = false ∧
      ((c.set_big_int b i1).cache.set_big_int b i2).cache.get_big_int b = some i2) := by
  refine ⟨⟨?_, ?_⟩, ⟨?_, ?_⟩, ⟨?_, ?_⟩, ⟨?_, ?_⟩⟩ <;>
    simp [TypeCache.add_union, TypeCache.add_number, TypeCache.set_string,
      TypeCache.set_big_int, TypeCache.get_union, TypeCache.get_number,
      TypeCache.get_string, TypeCache.get_big_int, mapInsert]

/-- C9: each add/set operation performs the hash-map insertion before the
no-reinsertion check: when a key with an existing mapping is re-added, the
`debug_assert` condition evaluates to false, and the cache state at that
moment already maps the key to the new id — it is not left unchanged on
detection, in any build configuration; for all four operations. -/
theorem typeCache_insert_before_check (c : TypeCache) (l : TypeList)
    (n : Number) (s b : Atom) (j1 j2 j3 j4 i1 i2 i3 i4 : TypeId)
    (hu : c.get_union l = some j1) (hn : c.get_number n = some j2)
    (hs : c.get_string s = some j3) (hb : c.get_big_int b = some j4) :
    ((c.add_union l i1).debug_assert_ok = false ∧
      (c.add_union l i1).cache.get_union l = some i1) ∧
    ((c.add_number n i2).debug_assert_ok = false ∧
      (c.add_number n i2).cache.get_number n = some i2) ∧
    ((c.set_string s i3).debug_assert_ok = false ∧
      (c.set_string s i3).cache.get_string s = some i3) ∧
    ((c.set_big_int b i4).debug_assert_ok = false ∧
      (c.set_big_int b i4).cache.get_big_int b = some i4) := by
  refine ⟨⟨?_, ?_⟩, ⟨?_, ?_⟩, ⟨?_, ?_⟩, ⟨?_, ?_⟩⟩ <;>
    simp_all [TypeCache.add_union, TypeCache.add_number, TypeCache.set_string,
      TypeCache.set_big_int, TypeCache.get_union, TypeCache.get_number,
      TypeCache.get_string, TypeCache.get_big_int, mapInsert]

/-- A concrete cache holding one mapping in each of the four tables with
exposed operations, used to instantiate hypotheses about pre-existing
mappings. -/
def preloadedCache : TypeCache :=
  ((((TypeCache.new.add_union ⟨[3]⟩ 1).cache.add_number ⟨5⟩ 2).cache.set_string
      "a" 3).cache.set_big_int "1n" 4).cache

/-- Witness for C9 on `preloadedCache`, re-adding each of its four keys. -/
theorem typeCache_insert_before_check_witness :
    ((preloadedCache.add_union ⟨[3]⟩ 8).debug_assert_ok = false ∧
      (preloadedCache.add_union ⟨[3]⟩ 8).cache.get_union ⟨[3]⟩ = some 8) ∧
    ((preloadedCache.add_number ⟨5⟩ 8).debug_assert_ok = false ∧
      (preloadedCache.add_number ⟨5⟩ 8).cache.get_number ⟨5⟩ = some 8) ∧
    ((preloadedCache.set_string "a" 8).debug_assert_ok = false ∧
      (preloadedCache.set_string "a" 8).cache.get_string "a" = some 8) ∧
    ((preloadedCache.set_big_int "1n" 8).debug_assert_ok = false ∧
      (preloadedCache.set_big_int "1n" 8).cache.get_big_int "1n" = some 8) :=
  typeCache_insert_before_check preloadedCache ⟨[3]⟩ ⟨5⟩ "a" "1n"
    1 2 3 4 8 8 8 8 rfl rfl rfl rfl

/-- C6: number-literal keys compare by exact bit representation: after
`add_number` for the NaN bit pattern, `get_number` with a number of the
identical bit pattern returns the very TypeId just added; positive zero
and negative zero have distinct bit patterns, hence are distinct keys, and
adding a mapping for one never affects lookups of the other. -/
theorem typeCache_number_bit_exact :
    (∀ (c : TypeCache) (id : TypeId),
      (c.add_number ⟨nanBits⟩ id).cache.get_number ⟨nanBits⟩ = some id) ∧
    Number.mk posZeroBits ≠ Number.mk negZeroBits ∧
    (∀ (c : TypeCache) (id : TypeId),
      (c.add_number ⟨posZeroBits⟩ id).cache.get_number ⟨negZeroBits⟩ =
        c.get_number ⟨negZeroBits⟩) := by
  refine ⟨?_, by decide, ?_⟩ <;> intro c id <;>
    simp [TypeCache.add_number, TypeCache.get_number, mapInsert,
      posZeroBits, negZeroBits]

/-- Model of `Vec::with_capacity_in`: a fresh vector with the given
capacity and length zero; only the (empty) contents are modelled. -/
def withCapacityIn (_capacity : Nat) : List TypeId := []

/-- Model of `<[T]>::copy_from_slice`: copies `src` over `dst`; its
contract requires the two lengths to be equal, and any other call is a
runtime abort, modelled as `none`. -/
def copyFromSlice (dst src : List TypeId) : Option (List TypeId) :=
  if dst.length = src.length then some src else none

/-- Model of `TypeList::clone_in`: allocates a fresh vector of length zero
with capacity `self.0.len()`, then calls `copy_from_slice` with the
original slice; `none` models the length-mismatch abort. -/
def TypeList.clone_in (l : TypeList) : Option TypeList :=
  (copyFromSlice (withCapacityIn l.toList.length) l.toList).map TypeList.mk

/-- C10: `TypeList::clone_in` aborts (length-mismatch in
`copy_from_slice`) for every non-empty list, because the destination
vector has length zero while the source slice does not; it succeeds only
on the empty list. -/
theorem typeList_clone_in_aborts_nonempty (l : TypeList) :
    (l.toList ≠ [] → l.clone_in = none) ∧
    (l.toList = [] → l.clone_in = some l) := by
  obtain ⟨xs⟩ := l
  constructor
  · intro h
    simp [TypeList.clone_in, copyFromSlice, withCapacityIn]
    intro hlen
    exact absurd (List.eq_nil_of_length_eq_zero hlen.symm) h
  · intro h
    subst h
    rfl

/-- Witness for C10 on the non-empty list `[3]` and on the empty list. -/
theorem typeList_clone_in_aborts_nonempty_witness :
    TypeList.clone_in ⟨[3]⟩ = none ∧
    TypeList.clone_in ⟨[]⟩ = some ⟨[]⟩ :=
  ⟨(typeList_clone_in_aborts_nonempty ⟨[3]⟩).1 (by simp),
    (typeList_clone_in_aborts_nonempty ⟨[]⟩).2 rfl⟩
